import Mathlib

/-!
Verification development for the sqlite wrapper layer (`silicon/sqlite.hh`):
a shallow embedding of `sqlite_statement::row_to_sio`, `operator>>` (single-row
fetch), `operator|` (callback iteration), the typed `read_column` overloads,
and `sqlite_database` (`connect`, `bind` overloads, `operator()`), together
with theorems about column-to-field matching, the row iteration protocol,
the bind/read round trip, error surfacing and resource release.

The sqlite engine itself is external: it is modelled as an oracle (result
codes and stored cells), never as concrete engine behavior.
-/

namespace Silicon

/-- Scalar values flowing between engine columns and record fields.
Doubles carry no arithmetic in this layer (pure store and retrieve), so they
are modelled by an exact carrier `Rat`; text is the raw byte sequence, which
may contain 0 bytes. -/
inductive Val where
  | vInt (n : Int)
  | vInt64 (n : Int)
  | vDouble (q : Rat)
  | vText (bs : List Nat)
deriving DecidableEq

/-- One named field of an `iod::sio` record, in declaration order inside a
`List Field`. `value` is the field's current contents. -/
structure Field where
  name : String
  value : Val
deriving DecidableEq

/-- One result column of the current row: the name `sqlite3_column_name`
reports, paired with the value the matching field's typed `read_column`
overload would obtain for it. -/
abbrev Column := String × Val

/-- Embeds one pass of the inner `foreach(o) | [&](auto& m)` loop of
`row_to_sio` for a single column, in the in-bounds case where
`filled[i]` is 0: scans the fields in declaration order and writes the
column's value into the first field whose name compares equal to the
column name (`!strcmp`); the Bool reports whether a match occurred
(the source's `found` flag at loop exit). -/
def writeFirstMatch (cname : String) (v : Val) : List Field → List Field × Bool
  | [] => ([], false)
  | f :: fs =>
    if f.name = cname then ({ f with value := v } :: fs, true)
    else
      let r := writeFirstMatch cname v fs
      (f :: r.1, r.2)

/-- Embeds the column loop of `sqlite_statement::row_to_sio`.  `o` is the
record, `filled` the `int filled[sizeof...(A)]` array (one slot per FIELD,
`memset` to 0), `i` the current column index.  The source tests
`!filled[i]` with `i` the COLUMN index: when the record is nonempty and
`i` is outside `filled`, that is an out-of-bounds stack access (undefined
behavior), modelled as `none`.  With an empty record the inner `foreach`
body never runs, so `filled` is never touched and the column is skipped. -/
def rowToSioGo (o : List Field) (filled : List Bool) (i : Nat) :
    List Column → Option (List Field)
  | [] => some o
  | (cname, v) :: cols =>
    if o.isEmpty then rowToSioGo o filled (i + 1) cols
    else
      match filled.get? i with
      | none => none
      | some b =>
        if b then rowToSioGo o filled (i + 1) cols
        else
          let r := writeFirstMatch cname v o
          if r.2 then rowToSioGo r.1 (filled.set i true) (i + 1) cols
          else rowToSioGo o filled (i + 1) cols

/-- Embeds `sqlite_statement::row_to_sio`: marshal the current row into the
record `o`.  `row` lists the result columns left to right (`ncols =
sqlite3_column_count`).  `filled` starts as `sizeof...(A)` zeroes.
`none` marks the undefined out-of-bounds access on `filled`. -/
def row_to_sio (o : List Field) (row : List Column) : Option (List Field) :=
  rowToSioGo o (List.replicate o.length false) 0 row

/-- The in-bounds meaning of `row_to_sio` (proved equivalent when the row has
no more columns than the record has fields): every column simply writes the
first field of equal name, with no per-field filled tracking. -/
def rowToSioSimple : List Field → List Column → List Field
  | o, [] => o
  | o, (cname, v) :: cols => rowToSioSimple (writeFirstMatch cname v o).1 cols

/-- The executions of `row_to_sio` that stay inside the `filled` array:
either the record has no fields (the inner loop body never runs) or there
are at most as many columns as fields. -/
def inBounds (o : List Field) (row : List Column) : Prop :=
  o = [] ∨ row.length ≤ o.length

instance (o : List Field) (row : List Column) : Decidable (inBounds o row) := by
  unfold inBounds; infer_instance

/-- Spec-side write for one column, following the specification text: the
first field whose name exactly equals the column name AND which has not
already been filled by an earlier column of this row receives the value and
is marked filled; filled fields of the same name are scanned past. -/
def specWrite (cname : String) (v : Val) : List (Field × Bool) → List (Field × Bool)
  | [] => []
  | (f, fl) :: fs =>
    if f.name = cname ∧ fl = false then ({ f with value := v }, true) :: fs
    else (f, fl) :: specWrite cname v fs

/-- Modelled from the spec (section 4.3 column-matching procedure), for
comparison with `row_to_sio`: per-field filled tracking, each column fills
at most one not-yet-filled field, so no field is written twice from the
same row. -/
def rowToSioSpec (o : List Field) (row : List Column) : List Field :=
  (row.foldl (fun st c => specWrite c.1 c.2 st) (o.map (fun f => (f, false)))).map
    (fun p => p.1)

/-- Outcome of one `sqlite3_step` call on the statement's cursor:
a data row, `SQLITE_DONE`, or an engine error carrying its result code. -/
inductive StepRes where
  | row (cols : List Column)
  | done
  | err (code : Int)
deriving DecidableEq

/-- The fixed message `operator>>` throws whenever `sqlite3_step` does not
return `SQLITE_ROW` — the same text for the exhausted case and for an
engine error, with no engine diagnostic appended. -/
def noRowMsg : String := "sqlite3_step did not return SQLITE_ROW."

/-- Embeds `sqlite_statement::operator>>` (single-row fetch).  The cursor is
the list of pending step outcomes; the head is what this call's single
`sqlite3_step` yields (an empty list behaves as `SQLITE_DONE`).  On a row,
`row_to_sio` populates the record and the function falls off the end of its
`int`-returning body without executing a `return` statement: the returned
status is modelled as `none : Option Int`.  The result carries the populated
record, that absent return value, and the steps left after the one consumed.
The outer `Option` is `none` exactly when `row_to_sio` hits its
out-of-bounds access. -/
def fetchOne (o : List Field) :
    List StepRes → Option (Except String (List Field × Option Int × List StepRes))
  | [] => some (Except.error noRowMsg)
  | StepRes.row cols :: rest =>
    (row_to_sio o cols).map (fun o2 => Except.ok (o2, none, rest))
  | StepRes.done :: _ => some (Except.error noRowMsg)
  | StepRes.err _ :: _ => some (Except.error noRowMsg)

/-- Embeds `sqlite_statement::operator|` (callback iteration).  `o₀` is the
freshly default-constructed record `T o` of each iteration; the result lists
the records passed to the visitor, in order.  The `while` condition
`sqlite3_step(stmt_) == SQLITE_ROW` exits the loop on `SQLITE_DONE` and on
engine errors alike: an error terminates iteration normally and is not
surfaced anywhere.  The outer `Option` is `none` exactly when some row's
`row_to_sio` hits its out-of-bounds access. -/
def forEachSteps (o₀ : List Field) : List StepRes → Option (List (List Field))
  | [] => some []
  | StepRes.row cols :: rest =>
    (row_to_sio o₀ cols).bind (fun o2 => (forEachSteps o₀ rest).map (fun l => o2 :: l))
  | StepRes.done :: _ => some []
  | StepRes.err _ :: _ => some []

/-- A value cell stored in the engine for one bound placeholder, as the
narrow engine capability keeps it: an integer (64-bit), a real, or a byte
string of recorded length. -/
inductive Cell where
  | intC (n : Int)
  | realC (q : Rat)
  | textC (bs : List Nat)
deriving DecidableEq

/-- A C++ value handed to `sqlite_database::operator()` as a positional
argument, tagged with its static type: `int`, `int64_t`, `double`, or
`std::string`. -/
inductive BindVal where
  | bInt (n : Int)
  | bInt64 (n : Int)
  | bDouble (q : Rat)
  | bText (bs : List Nat)
deriving DecidableEq

/-- Embeds the overload set `sqlite_database::bind`: overload resolution at
the call `this->bind(stmt, i, m)`.  An `int` selects `sqlite3_bind_int`
(stored sign-extended as a 64-bit integer cell), a `double` selects
`sqlite3_bind_double`, a `std::string` selects
`sqlite3_bind_text(s.data(), s.size(), nullptr)` — length-prefixed, so every
byte of the string including embedded 0 bytes is stored.  There is NO
overload taking `int64_t`: for such an argument the conversions to `int` and
to `double` tie in rank, the call is ambiguous and does not compile,
modelled as `none`. -/
def bind : BindVal → Option Cell
  | BindVal.bInt n => some (Cell.intC n)
  | BindVal.bDouble q => some (Cell.realC q)
  | BindVal.bText bs => some (Cell.textC bs)
  | BindVal.bInt64 _ => none

/-- The truncation `sqlite3_column_int` applies when returning a stored
64-bit integer through a 32-bit `int`: reduction modulo 2^32 into
[-2^31, 2^31). -/
def int32trunc (n : Int) : Int := (n + 2 ^ 31) % 2 ^ 32 - 2 ^ 31

/-- Embeds `read_column(int pos, int& v)` on an integer cell.  Reading a
cell of another stored type goes through the engine's own coercion rules
(external, engine-defined), left unmodelled as `none`; the round-trip
theorems only ever read back the type that was bound. -/
def read_column_int : Cell → Option Int
  | Cell.intC n => some (int32trunc n)
  | _ => none

/-- Embeds `read_column(int pos, int64_t& v)` on an integer cell;
cross-type engine coercion unmodelled as in `read_column_int`. -/
def read_column_int64 : Cell → Option Int
  | Cell.intC n => some n
  | _ => none

/-- Embeds `read_column(int pos, double& v)` on a real cell;
cross-type engine coercion unmodelled as in `read_column_int`. -/
def read_column_double : Cell → Option Rat
  | Cell.realC q => some q
  | _ => none

/-- Embeds `read_column(int pos, std::string& v)`: `sqlite3_column_text`
plus `sqlite3_column_bytes`, so all `n` stored bytes are copied verbatim,
embedded 0 bytes included; cross-type engine coercion unmodelled. -/
def read_column_text : Cell → Option (List Nat)
  | Cell.textC bs => some bs
  | _ => none

/-- Read the projected column back as the same static type that was bound:
the typed `read_column` overload matching the tag of `v`. -/
def readBackSame (v : BindVal) (c : Cell) : Option BindVal :=
  match v with
  | BindVal.bInt _ => (read_column_int c).map BindVal.bInt
  | BindVal.bInt64 _ => (read_column_int64 c).map BindVal.bInt64
  | BindVal.bDouble _ => (read_column_double c).map BindVal.bDouble
  | BindVal.bText _ => (read_column_text c).map BindVal.bText

/-- One bind/read round trip: bind the value at a placeholder, then read the
corresponding projected column back as the same type. -/
def roundTrip (v : BindVal) : Option BindVal := (bind v).bind (readBackSame v)

/-- The range of a C++ 32-bit `int`, the static type of a `bInt` argument. -/
def validCInt (n : Int) : Prop := -(2 ^ 31) ≤ n ∧ n < 2 ^ 31

instance (n : Int) : Decidable (validCInt n) := by
  unfold validCInt; infer_instance

/-- The external engine as an oracle for one `operator()` call: its
diagnostic-text table `sqlite3_errstr`, the result code of
`sqlite3_prepare_v2` as a function of the database handle passed in
(`none` models a null `sqlite3*`), and the result code of the bind at each
1-based placeholder position. -/
structure Engine where
  errstr : Int → String
  prepareRes : Option Nat → Int
  bindRes : Nat → Int

/-- What became of the native prepared-statement handle by the time
`sqlite_database::operator()` exits: never created (prepare failed),
leaked (created, but neither finalized nor handed to an owner), or owned by
the returned `sqlite_statement`'s custodial `shared_ptr`, which runs
`sqlite3_finalize` on destruction. -/
inductive StmtFate where
  | notCreated
  | leaked
  | owned
deriving DecidableEq

/-- Embeds the `foreach(std::forward_as_tuple(args...))` bind loop of
`sqlite_database::operator()`: positions `i, i+1, ...` for the remaining
`n` arguments; the first nonzero engine result throws
`"Sqlite error during binding: " ++ errstr`. -/
def bindLoop (eng : Engine) (i : Nat) : Nat → Except String Unit
  | 0 => Except.ok ()
  | n + 1 =>
    if eng.bindRes i ≠ 0 then
      Except.error ("Sqlite error during binding: " ++ eng.errstr (eng.bindRes i))
    else bindLoop eng (i + 1) n

/-- Embeds `sqlite_database::operator()(req, args...)` with `nargs`
positional arguments, tracking the statement handle's fate.  The member
`db_` is passed to `sqlite3_prepare_v2` as it is — including the null
handle of a never-connected database — with no open-connection check in
this layer.  A prepare failure throws before any statement handle exists.
A bind failure throws from inside the loop, BEFORE the
`return sqlite_statement(stmt)` line that would give the raw handle to its
custodial owner: no `sqlite3_finalize` runs on that path, so the prepared
handle leaks.  On success the returned `sqlite_statement` owns the handle. -/
def dbExec (eng : Engine) (db : Option Nat) (nargs : Nat) :
    Except String Unit × StmtFate :=
  if eng.prepareRes db ≠ 0 then
    (Except.error ("Sqlite error during prepare: " ++ eng.errstr (eng.prepareRes db)),
      StmtFate.notCreated)
  else
    match bindLoop eng 1 nargs with
    | Except.error msg => (Except.error msg, StmtFate.leaked)
    | Except.ok () => (Except.ok (), StmtFate.owned)

/-- Embeds the default constructor `sqlite_database()` : `db_(nullptr)` —
the handle of a database object that has never been connected. -/
def db_default : Option Nat := none

/-- Embeds `sqlite_database::connect`: `openCode` and `handle` are what
`sqlite3_open_v2` returned and produced; a nonzero code throws
`"Cannot open database " ++ filename ++ " " ++ sqlite3_errstr(code)`,
otherwise the handle is kept. -/
def connect (errstr : Int → String) (filename : String) (openCode : Int)
    (handle : Nat) : Except String Nat :=
  if openCode ≠ 0 then
    Except.error ("Cannot open database " ++ filename ++ " " ++ errstr openCode)
  else Except.ok handle

/-- A concrete engine for the bind-failure scenario: prepare succeeds and
the bind at placeholder position 2 is rejected with `SQLITE_RANGE` (25). -/
def engBindFail : Engine :=
  { errstr := fun c => if c = 25 then "column index out of range" else "unknown error"
    prepareRes := fun _ => 0
    bindRes := fun i => if i = 2 then 25 else 0 }

/-- A concrete engine whose prepare always fails with code 1
(`SQLITE_ERROR`). -/
def engPrepFail : Engine :=
  { errstr := fun c => if c = 1 then "SQL logic error" else "unknown error"
    prepareRes := fun _ => 1
    bindRes := fun _ => 0 }

/-- A concrete engine that rejects every bind with `SQLITE_RANGE` (25). -/
def engBindFail1 : Engine :=
  { errstr := fun c => if c = 25 then "column index out of range" else "unknown error"
    prepareRes := fun _ => 0
    bindRes := fun _ => 25 }

/-- A concrete engine that accepts everything, even a null database
handle. -/
def engNullOk : Engine :=
  { errstr := fun _ => "unknown error"
    prepareRes := fun _ => 0
    bindRes := fun _ => 0 }

/-- A concrete `sqlite3_errstr` table for the connect-failure scenario
(code 14 is `SQLITE_CANTOPEN`). -/
def errW : Int → String :=
  fun c => if c = 14 then "unable to open database file" else "unknown error"

theorem writeFirstMatch_length (cname : String) (v : Val) :
    ∀ o : List Field, ((writeFirstMatch cname v o).1).length = o.length := by
  intro o
  induction o with
  | nil => rfl
  | cons f fs ih =>
    by_cases h : f.name = cname
    · simp [writeFirstMatch, h]
    · simp [writeFirstMatch, h, ih]

theorem writeFirstMatch_not_found (cname : String) (v : Val) :
    ∀ o : List Field, (writeFirstMatch cname v o).2 = false →
      (writeFirstMatch cname v o).1 = o := by
  intro o
  induction o with
  | nil => intro _; rfl
  | cons f fs ih =>
    intro h2
    by_cases h : f.name = cname
    · simp [writeFirstMatch, h] at h2
    · simp [writeFirstMatch, h] at h2 ⊢
      exact ih h2

theorem rowToSioGo_nil (filled : List Bool) :
    ∀ (cols : List Column) (i : Nat), rowToSioGo [] filled i cols = some [] := by
  intro cols
  induction cols with
  | nil => intro i; rfl
  | cons c cs ih =>
    intro i
    obtain ⟨cname, v⟩ := c
    simp [rowToSioGo, ih]

theorem rowToSioSimple_nil : ∀ cols : List Column, rowToSioSimple [] cols = [] := by
  intro cols
  induction cols with
  | nil => rfl
  | cons c cs ih =>
    obtain ⟨cname, v⟩ := c
    simpa [rowToSioSimple, writeFirstMatch] using ih

theorem get?_replicate_false :
    ∀ (n k : Nat), k < n → (List.replicate n false).get? k = some false := by
  intro n
  induction n with
  | zero => intro k hk; omega
  | succ m ih =>
    intro k hk
    cases k with
    | zero => rfl
    | succ j =>
      rw [List.replicate_succ]
      exact ih j (by omega)

theorem rowToSioGo_eq :
    ∀ (cols : List Column) (o : List Field) (filled : List Bool) (i : Nat),
      i + cols.length ≤ filled.length →
      (∀ k, i ≤ k → k < filled.length → filled.get? k = some false) →
      rowToSioGo o filled i cols = some (rowToSioSimple o cols) := by
  intro cols
  induction cols with
  | nil => intro o filled i _ _; rfl
  | cons c cs ih =>
    intro o filled i hlen hf
    obtain ⟨cname, v⟩ := c
    by_cases he : o = []
    · subst he
      rw [rowToSioSimple_nil]
      exact rowToSioGo_nil filled _ i
    · have hi : i < filled.length := by
        simp only [List.length_cons] at hlen; omega
      have hfi : filled.get? i = some false := hf i (le_refl i) hi
      have hoe : o.isEmpty = false := by
        cases o with
        | nil => exact absurd rfl he
        | cons a as => rfl
      rw [rowToSioGo, hoe, hfi]
      simp only [Bool.false_eq_true, if_false]
      by_cases hr : (writeFirstMatch cname v o).2 = true
      · simp only [hr, if_true]
        rw [rowToSioSimple]
        apply ih
        · rw [List.length_set]
          simp only [List.length_cons] at hlen; omega
        · intro k hk1 hk2
          rw [List.length_set] at hk2
          rw [List.get?_set_ne true filled (by omega)]
          exact hf k (by omega) hk2
      · simp only [hr, if_false]
        rw [rowToSioSimple, writeFirstMatch_not_found cname v o (by simpa using hr)]
        apply ih
        · simp only [List.length_cons] at hlen; omega
        · intro k hk1 hk2
          exact hf k (by omega) hk2

theorem row_to_sio_inBounds (o : List Field) (row : List Column)
    (h : inBounds o row) : row_to_sio o row = some (rowToSioSimple o row) := by
  rcases h with h | h
  · subst h
    rw [rowToSioSimple_nil]
    exact rowToSioGo_nil _ row 0
  · apply rowToSioGo_eq
    · simpa using h
    · intro k _ hk
      rw [List.length_replicate] at hk
      exact get?_replicate_false o.length k hk

theorem writeFirstMatch_frame (cname : String) (v : Val) :
    ∀ (o : List Field) (j : Nat) (f : Field),
      o.get? j = some f → f.name ≠ cname →
      ((writeFirstMatch cname v o).1).get? j = some f := by
  intro o
  induction o with
  | nil => intro j f hj _; simp [List.get?] at hj
  | cons g gs ih =>
    intro j f hj hn
    by_cases h : g.name = cname
    · cases j with
      | zero =>
        rw [List.get?_cons_zero] at hj
        injection hj with hj
        subst hj
        exact absurd h hn
      | succ m =>
        rw [List.get?_cons_succ] at hj
        simp only [writeFirstMatch, h, if_true]
        rw [List.get?_cons_succ]
        exact hj
    · cases j with
      | zero =>
        rw [List.get?_cons_zero] at hj
        simp only [writeFirstMatch, h, if_false]
        rw [List.get?_cons_zero]
        exact hj
      | succ m =>
        rw [List.get?_cons_succ] at hj
        simp only [writeFirstMatch, h, if_false]
        rw [List.get?_cons_succ]
        exact ih m f hj hn

theorem rowToSioSimple_frame :
    ∀ (row : List Column) (o : List Field) (j : Nat) (f : Field),
      o.get? j = some f → (∀ c ∈ row, c.1 ≠ f.name) →
      (rowToSioSimple o row).get? j = some f := by
  intro row
  induction row with
  | nil => intro o j f hj _; exact hj
  | cons c cs ih =>
    intro o j f hj hn
    obtain ⟨cname, v⟩ := c
    have hne : f.name ≠ cname := Ne.symm (hn (cname, v) (by simp))
    rw [rowToSioSimple]
    exact ih _ j f (writeFirstMatch_frame cname v o j f hj hne)
      (fun d hd => hn d (by simp [hd]))

theorem bindLoop_ok (eng : Engine) (h : ∀ i, eng.bindRes i = 0) :
    ∀ (n i : Nat), bindLoop eng i n = Except.ok () := by
  intro n
  induction n with
  | zero => intro i; rfl
  | succ m ih => intro i; simp [bindLoop, h i, ih]

/-- Claim C1: the claim states that for each column the first field whose
name equals the column name AND which has not already been filled by an
earlier column of the same row receives the value, so no field is written
twice from one row.  The code violates this: `filled` is sized by the number
of fields but indexed by the COLUMN index, so no per-field tracking happens
and two columns named `a` both write the record's first field `a` — the
field is written twice and ends with the second column's value 2, while the
procedure described by the spec (`rowToSioSpec`) leaves it at the first
column's value 1. -/
theorem C1_field_written_twice :
    row_to_sio [⟨"a", Val.vInt 0⟩, ⟨"b", Val.vInt 0⟩]
        [("a", Val.vInt 1), ("a", Val.vInt 2)]
      = some [⟨"a", Val.vInt 2⟩, ⟨"b", Val.vInt 0⟩]
    ∧ rowToSioSpec [⟨"a", Val.vInt 0⟩, ⟨"b", Val.vInt 0⟩]
        [("a", Val.vInt 1), ("a", Val.vInt 2)]
      = [⟨"a", Val.vInt 1⟩, ⟨"b", Val.vInt 0⟩] := by
  exact ⟨by decide, by decide⟩

/-- Claim C2: the claim states that a result column matching no field is
ignored without error, in particular when the row has more columns than the
record has fields.  The code instead evaluates `filled[i]` at the column
index: with a one-field record (so `int filled[1]`) and a two-column row,
scanning the second column reads `filled[1]` out of bounds — undefined
behavior, modelled as `none`. -/
theorem C2_extra_column_oob :
    row_to_sio [⟨"a", Val.vInt 0⟩] [("a", Val.vInt 7), ("b", Val.vInt 8)]
      = none := by
  decide

/-- Claim C3 counterexample: the claim includes 64-bit integers among the
types that can be bound and read back, but `sqlite_database::bind` has no
`int64_t` overload (the conversions to `int` and to `double` tie, so the
call does not compile, modelled as `bind = none`): the bind/read round trip
fails for a 64-bit integer value. -/
theorem C3_int64_not_bindable :
    ¬ roundTrip (BindVal.bInt64 5) = some (BindVal.bInt64 5) := by
  decide

/-- Claim C3 (amended): for the types the overload set actually accepts —
32-bit integer, double, and text — binding a value and reading the
projected column back as the same type yields the original value, for text
byte-for-byte including embedded 0 bytes; 64-bit integers are excluded
because no bind overload takes them. -/
theorem C3_roundTrip_amended (v : BindVal)
    (h32 : ∀ n, v = BindVal.bInt n → validCInt n)
    (h64 : ∀ n, v ≠ BindVal.bInt64 n) :
    roundTrip v = some v := by
  cases v with
  | bInt n =>
    have h := h32 n rfl
    have ht : int32trunc n = n := by
      unfold validCInt at h
      unfold int32trunc
      rw [Int.emod_eq_of_lt (by omega) (by omega)]
      omega
    simp [roundTrip, Silicon.bind, readBackSame, read_column_int, ht]
  | bInt64 n => exact absurd rfl (h64 n)
  | bDouble q => rfl
  | bText bs => rfl

/-- Claim C3 witness: concrete round trips for a 32-bit integer, a double,
and a text value containing an embedded 0 byte. -/
theorem C3_roundTrip_amended_witness :
    roundTrip (BindVal.bInt 7) = some (BindVal.bInt 7)
    ∧ roundTrip (BindVal.bDouble (1 / 2)) = some (BindVal.bDouble (1 / 2))
    ∧ roundTrip (BindVal.bText [104, 0, 105]) = some (BindVal.bText [104, 0, 105]) := by
  refine ⟨?_, ?_, ?_⟩
  · exact C3_roundTrip_amended (BindVal.bInt 7)
      (fun n h => by cases h; decide) (fun n h => BindVal.noConfusion h)
  · exact C3_roundTrip_amended (BindVal.bDouble (1 / 2))
      (fun n h => BindVal.noConfusion h) (fun n h => BindVal.noConfusion h)
  · exact C3_roundTrip_amended (BindVal.bText [104, 0, 105])
      (fun n h => BindVal.noConfusion h) (fun n h => BindVal.noConfusion h)

/-- Claim C4: the claim states that when the engine rejects a bind after a
successful prepare, the operation fails with the bind error AND the
already-prepared native statement handle is still released.  The failure is
surfaced as claimed, but the release is skipped: the throw happens before
`return sqlite_statement(stmt)` hands the raw handle to its custodial
owner, and no `sqlite3_finalize` runs on that path, so the handle's fate is
`leaked`, not `owned` (and not released). -/
theorem C4_bind_failure_leaks_statement :
    dbExec engBindFail (some 1) 2
      = (Except.error ("Sqlite error during binding: "
            ++ "column index out of range"),
         StmtFate.leaked) := by
  rfl

/-- Claim C5 counterexample: an engine failure during `operator|` stepping
(result code 266, an I/O read error) is silently swallowed — the loop
condition `sqlite3_step(stmt_) == SQLITE_ROW` merely exits, the call
returns normally with an empty visit list, and the outcome is
indistinguishable from a cleanly exhausted result set, so the failure is
not surfaced to the caller at all. -/
theorem C5_forEach_swallows_step_error :
    forEachSteps [⟨"a", Val.vInt 0⟩] [StepRes.err 266] = some []
    ∧ forEachSteps [⟨"a", Val.vInt 0⟩] [StepRes.done] = some [] := by
  exact ⟨rfl, rfl⟩

/-- Claim C5 (amended): connection, prepare and bind failures are surfaced
as exceptions whose message embeds the engine's `sqlite3_errstr` text; a
step that does not yield a row in `operator>>` — whether exhaustion or an
engine error — is surfaced as one exception with a fixed message carrying
no engine diagnostic; and an engine error while `operator|` is stepping is
not surfaced at all: the loop ends as if the rows were exhausted. -/
theorem C5_error_surfacing_amended (errstr : Int → String) (fn : String)
    (hnd : Nat) (r c e : Int) (eng eng2 : Engine) (db db2 : Option Nat)
    (n n2 : Nat) (o : List Field) (rest : List StepRes)
    (hr : r ≠ 0) (hp : eng.prepareRes db ≠ 0)
    (hp2 : eng2.prepareRes db2 = 0) (hb2 : eng2.bindRes 1 = e) (he : e ≠ 0) :
    connect errstr fn r hnd
      = Except.error ("Cannot open database " ++ fn ++ " " ++ errstr r)
    ∧ (dbExec eng db n).1
      = Except.error ("Sqlite error during prepare: "
          ++ eng.errstr (eng.prepareRes db))
    ∧ (dbExec eng2 db2 (n2 + 1)).1
      = Except.error ("Sqlite error during binding: " ++ eng2.errstr e)
    ∧ fetchOne o (StepRes.err c :: rest) = some (Except.error noRowMsg)
    ∧ forEachSteps o (StepRes.err c :: rest) = some [] := by
  refine ⟨?_, ?_, ?_, rfl, rfl⟩
  · simp [connect, hr]
  · simp [dbExec, hp]
  · simp [dbExec, hp2, bindLoop, hb2, he]

/-- Claim C5 witness: the amended claim at concrete engines and inputs. -/
theorem C5_error_surfacing_amended_witness :
    connect errW "db.sqlite" 14 0
      = Except.error ("Cannot open database " ++ "db.sqlite" ++ " " ++ errW 14)
    ∧ (dbExec engPrepFail (some 1) 0).1
      = Except.error ("Sqlite error during prepare: "
          ++ engPrepFail.errstr (engPrepFail.prepareRes (some 1)))
    ∧ (dbExec engBindFail1 (some 1) (0 + 1)).1
      = Except.error ("Sqlite error during binding: " ++ engBindFail1.errstr 25)
    ∧ fetchOne [⟨"a", Val.vInt 0⟩] (StepRes.err 266 :: [])
      = some (Except.error noRowMsg)
    ∧ forEachSteps [⟨"a", Val.vInt 0⟩] (StepRes.err 266 :: []) = some [] :=
  C5_error_surfacing_amended errW "db.sqlite" 0 14 266 25 engPrepFail
    engBindFail1 (some 1) (some 1) 0 0 [⟨"a", Val.vInt 0⟩] []
    (by decide) (by decide) rfl rfl (by decide)

/-- Claim C6: over a statement whose result has N rows, `operator|` invokes
the visitor exactly N times (the produced list has one entry per row), in
result order, each time with a record freshly built from the
default-constructed `o₀` and the current row alone — no field leakage
between rows — and terminates normally when the step yields `SQLITE_DONE`.
Hypothesis: every row stays inside the `filled` array (no more columns than
fields), the regime in which the source's behavior is defined. -/
theorem C6_forEach_visits (o₀ : List Field) (rows : List (List Column))
    (hb : ∀ r ∈ rows, inBounds o₀ r) :
    forEachSteps o₀ (rows.map StepRes.row ++ [StepRes.done])
      = some (rows.map (rowToSioSimple o₀)) := by
  induction rows with
  | nil => rfl
  | cons r rs ih =>
    have h1 : row_to_sio o₀ r = some (rowToSioSimple o₀ r) :=
      row_to_sio_inBounds o₀ r (hb r (by simp))
    simp [forEachSteps, h1, ih (fun x hx => hb x (by simp [hx]))]

/-- Claim C6 witness: two result rows produce exactly two visitor records,
in order. -/
theorem C6_forEach_visits_witness :
    forEachSteps [⟨"id", Val.vInt 0⟩, ⟨"name", Val.vText []⟩]
        (([[("id", Val.vInt 1), ("name", Val.vText [65])],
           [("id", Val.vInt 2), ("name", Val.vText [66])]].map StepRes.row)
          ++ [StepRes.done])
      = some ([[("id", Val.vInt 1), ("name", Val.vText [65])],
           [("id", Val.vInt 2), ("name", Val.vText [66])]].map
          (rowToSioSimple [⟨"id", Val.vInt 0⟩, ⟨"name", Val.vText []⟩])) :=
  C6_forEach_visits [⟨"id", Val.vInt 0⟩, ⟨"name", Val.vText []⟩]
    [[("id", Val.vInt 1), ("name", Val.vText [65])],
     [("id", Val.vInt 2), ("name", Val.vText [66])]] (by decide)

/-- Claim C7: `operator>>` consumes exactly one step outcome.  When that
step yields a row, the record is populated by the column-matching procedure
and precisely the remaining outcomes are left (the cursor rests on the
fetched row); when it yields anything other than a row, the call fails with
the hard no-row exception.  Hypothesis: the row stays inside the `filled`
array. -/
theorem C7_fetchOne_one_step (o : List Field) (cols : List Column)
    (rest rest2 : List StepRes) (s : StepRes)
    (hb : inBounds o cols) (hs : ∀ r, s ≠ StepRes.row r) :
    fetchOne o (StepRes.row cols :: rest)
      = some (Except.ok (rowToSioSimple o cols, none, rest))
    ∧ fetchOne o (s :: rest2) = some (Except.error noRowMsg) := by
  constructor
  · simp [fetchOne, row_to_sio_inBounds o cols hb]
  · cases s with
    | row r => exact absurd rfl (hs r)
    | done => rfl
    | err c => rfl

/-- Claim C7 witness: a successful one-row fetch and a failing fetch on an
exhausted cursor. -/
theorem C7_fetchOne_one_step_witness :
    fetchOne [⟨"a", Val.vInt 0⟩] (StepRes.row [("a", Val.vInt 5)] :: [])
      = some (Except.ok
          (rowToSioSimple [⟨"a", Val.vInt 0⟩] [("a", Val.vInt 5)], none, []))
    ∧ fetchOne [⟨"a", Val.vInt 0⟩] (StepRes.done :: [])
      = some (Except.error noRowMsg) :=
  C7_fetchOne_one_step [⟨"a", Val.vInt 0⟩] [("a", Val.vInt 5)] [] []
    StepRes.done (by decide) (fun r h => StepRes.noConfusion h)

/-- Claim C8: a record field whose name matches no column of the row is left
unchanged by the marshalling — it retains its initial value (frame
property).  Hypothesis: the row stays inside the `filled` array. -/
theorem C8_unmatched_field_frame (o : List Field) (row : List Column)
    (j : Nat) (f : Field) (hj : o.get? j = some f)
    (hn : ∀ c ∈ row, c.1 ≠ f.name) (hb : inBounds o row) :
    (row_to_sio o row).bind (fun out => out.get? j) = some f := by
  rw [row_to_sio_inBounds o row hb]
  simpa using rowToSioSimple_frame row o j f hj hn

/-- Claim C8 witness: field `b` is untouched by a row whose only column is
`a`. -/
theorem C8_unmatched_field_frame_witness :
    (row_to_sio [⟨"a", Val.vInt 0⟩, ⟨"b", Val.vInt 0⟩]
        [("a", Val.vInt 5)]).bind (fun out => out.get? 1)
      = some ⟨"b", Val.vInt 0⟩ :=
  C8_unmatched_field_frame [⟨"a", Val.vInt 0⟩, ⟨"b", Val.vInt 0⟩]
    [("a", Val.vInt 5)] 1 ⟨"b", Val.vInt 0⟩ (by decide) (by decide) (by decide)

/-- Claim C9: `operator>>` is declared to return `int`, but its success path
executes no `return` statement, so every successful call carries no
meaningful status value — in the embedding the returned-status component of
a successful result is always `none`. -/
theorem C9_success_returns_no_status (o : List Field) (st : List StepRes)
    (res : List Field × Option Int × List StepRes)
    (h : fetchOne o st = some (Except.ok res)) : res.2.1 = none := by
  cases st with
  | nil => simp [fetchOne] at h
  | cons s rest =>
    cases s with
    | row cols =>
      cases hro : row_to_sio o cols with
      | none => simp [fetchOne, hro] at h
      | some o2 =>
        simp only [fetchOne, hro, Option.map_some', Option.some.injEq,
          Except.ok.injEq] at h
        rw [← h]
    | done => simp [fetchOne] at h
    | err c => simp [fetchOne] at h

/-- Claim C9 witness: a concrete successful fetch whose status component is
`none`. -/
theorem C9_success_returns_no_status_witness :
    (([], none, []) : List Field × Option Int × List StepRes).2.1 = none :=
  C9_success_returns_no_status [] [StepRes.row []] ([], none, []) rfl

/-- Claim C10: executing a statement on a never-connected database is not
guarded: the default-constructed null handle (`db_default`) is passed
directly to the engine's prepare call, and the outcome is entirely the
engine's verdict on that null handle — if the engine accepts it, the call
succeeds with no open-connection check from this layer; if the engine
rejects it, the only failure is the engine's own prepare error. -/
theorem C10_no_open_guard (eng : Engine) (n : Nat) :
    (eng.prepareRes db_default = 0 → (∀ i, eng.bindRes i = 0) →
      dbExec eng db_default n = (Except.ok (), StmtFate.owned))
    ∧ (eng.prepareRes db_default ≠ 0 →
      (dbExec eng db_default n).1
        = Except.error ("Sqlite error during prepare: "
            ++ eng.errstr (eng.prepareRes db_default))) := by
  constructor
  · intro hp hb
    simp [dbExec, hp, bindLoop_ok eng hb n 1]
  · intro hp
    simp [dbExec, hp]

/-- Claim C10 witness: an engine that accepts the null handle lets a
never-connected database execute a statement successfully. -/
theorem C10_no_open_guard_witness :
    dbExec engNullOk db_default 2 = (Except.ok (), StmtFate.owned) :=
  (C10_no_open_guard engNullOk 2).1 rfl (fun _ => rfl)

end Silicon
